import Mathlib

/-!
Verification development for the anomaly-tracer dashboard core:
the Stage1/Stage2 record-linkage query (services/databricks_query_service.py),
the retry/reconnect executor, the dropdown listing helpers, and the
temporary-media cache (utils/cleanup.py).

Strings are modelled as lists of characters.  The SQL fragments of
query_stage1_stage2_linked are shallowly embedded as Lean functions over
lists of table rows; Databricks regexp_extract returns the EMPTY STRING
(not NULL) when the pattern does not match a non-null input, and NULL only
for a NULL input, which the embedding mirrors with Option on the input
side and a getD-empty on the match side.
-/

namespace AnomalyTracer

abbrev Str := List Char

def isDig (c : Char) : Bool := c.isDigit

/-- Lexicographic comparison of character lists (binary string collation,
used for ORDER BY and for the HH:mm:ss wall-clock comparisons). -/
def strLe : Str → Str → Bool
  | [], _ => true
  | _ :: _, [] => false
  | a :: as, b :: bs => if a = b then strLe as bs else decide (a < b)

/-- Consume exactly n ASCII digits from the front of a string. -/
def digits : Nat → Str → Option (Str × Str)
  | 0, cs => some ([], cs)
  | _ + 1, [] => none
  | n + 1, c :: cs =>
      if isDig c then
        match digits n cs with
        | some (d, r) => some (c :: d, r)
        | none => none
      else none

/-- Tokens of the fixed-width patterns used by the two REGEXP_EXTRACT
linkage-key regexes: a run of n digits, or a literal character. -/
inductive Tok where
  | dig : Nat → Tok
  | lit : Char → Tok
deriving DecidableEq

/-- Deterministic matcher for a fixed-width token pattern at the head of a
string; returns the matched text and the rest. -/
def matchToks : List Tok → Str → Option (Str × Str)
  | [], cs => some ([], cs)
  | Tok.dig n :: ps, cs =>
      match digits n cs with
      | some (d, r) =>
          match matchToks ps r with
          | some (g, r2) => some (d ++ g, r2)
          | none => none
      | none => none
  | Tok.lit _ :: _, [] => none
  | Tok.lit a :: ps, c :: cs =>
      if c = a then
        match matchToks ps cs with
        | some (g, r2) => some (a :: g, r2)
        | none => none
      else none

/-- Pattern of the linkage block id, NNN_NNNNNNN (3-digit block, underscore,
7-digit frame offset), as in both REGEXP_EXTRACT block regexes. -/
def blkPat : List Tok := [Tok.dig 3, Tok.lit '_', Tok.dig 7]

/-- Pattern of the 19-character timestamp key YYYY-MM-DDTHH:MM:SS, as in the
two REGEXP_EXTRACT timestamp regexes. -/
def tsPat : List Tok :=
  [Tok.dig 4, Tok.lit '-', Tok.dig 2, Tok.lit '-', Tok.dig 2, Tok.lit 'T',
   Tok.dig 2, Tok.lit ':', Tok.dig 2, Tok.lit ':', Tok.dig 2]

/-- A string consisting exactly of one match of the given token pattern. -/
def shapedBy (ps : List Tok) (s : Str) : Bool :=
  decide (matchToks ps s = some (s, []))

/-- One step of the regex search for the Stage 1 block pattern (a slash,
then the block, then an underscore): fires iff the whole pattern matches at
the head of the string, returning capture group 1. -/
def slashBlkFireAt (cs : Str) : Option Str :=
  match cs with
  | '/' :: rest =>
      match matchToks blkPat rest with
      | some (g, '_' :: _) => some g
      | _ => none
  | _ => none

/-- One step of the regex search for the timestamp pattern (an underscore
then the 19-character timestamp): fires iff the whole pattern matches at
the head of the string, returning capture group 1. -/
def tsFireAt (cs : Str) : Option Str :=
  match cs with
  | '_' :: rest =>
      match matchToks tsPat rest with
      | some (g, _) => some g
      | none => none
  | _ => none

/-- Leftmost-match search: try the fire function at every position from the
left and return the first capture, exactly the first-match semantics of
REGEXP_EXTRACT for these fixed-width patterns. -/
def scanWith (fire : Str → Option Str) : Str → Option Str
  | [] => none
  | c :: rest =>
      match fire (c :: rest) with
      | some g => some g
      | none => scanWith fire rest

/-- Stage 1 side block derivation from the trigger frame uri, the regex
with a slash before capture group (DIG3_DIG7) and an underscore after. -/
def scanSlashBlk (s : Str) : Option Str := scanWith slashBlkFireAt s

/-- Stage 2 side block derivation from the video filename, the same group
anchored at the start of the string by the caret. -/
def anchoredBlk (cs : Str) : Option Str :=
  match matchToks blkPat cs with
  | some (g, '_' :: _) => some g
  | _ => none

/-- Timestamp key derivation, identical regex on both sides. -/
def scanTsKey (s : Str) : Option Str := scanWith tsFireAt s

/-- Databricks regexp_extract yields the empty string when the pattern does
not match a (non-null) input. -/
def extractOrEmpty (f : Str → Option Str) (s : Str) : Str := (f s).getD []

/-- Warehouse timestamp, at the granularity the query inspects: the calendar
day (for DATE comparisons and the BETWEEN window) and the wall-clock
HH:mm:ss rendering (for the DATE_FORMAT time-of-day filters and ordering). -/
structure Timestamp where
  day : Int
  hms : Str
deriving DecidableEq

def tsLeB (a b : Timestamp) : Bool :=
  decide (a.day < b.day) || (decide (a.day = b.day) && strLe a.hms b.hms)

/-- A row of the Stage 1 source table, fields as selected by the query. -/
structure Stage1Src where
  session_id : Str
  farm_id : Str
  camera_id : Str
  processing_timestamp : Timestamp
  highest_probability_category : Str
  highest_probability_value : Int
  should_forward : Bool
  frame_uris : List Str
  probability_animal_husbandry : Int
  probability_down_cow : Int
  probability_quick_movements : Int
  probability_no_event : Int
  gemini_raw_response : Str
deriving DecidableEq

/-- A row of the Stage 2 source table, fields as selected by the query. -/
structure Stage2Src where
  inference_id : Str
  camera_id : Str
  inference_timestamp : Timestamp
  classification : Str
  max_probability_score : Int
  should_forward : Bool
  video_gcs_path : Str
  file_name : Str
  model_votes : Str
deriving DecidableEq

/-- A row of the stage1_data CTE.  trigger_frame_uri is frame_uris[0], which
is NULL when the array is empty; the two derived keys are NULL exactly when
the input uri is NULL, and otherwise the regexp_extract result (possibly the
empty string). -/
structure Stage1Row where
  session_id : Str
  farm_id : Str
  camera_id : Str
  stage1_timestamp : Timestamp
  stage1_category : Str
  stage1_confidence : Int
  stage1_should_forward : Bool
  frame_uris : List Str
  trigger_frame_uri : Option Str
  blk_file : Option Str
  frame_timestamp_key : Option Str
  probability_animal_husbandry : Int
  probability_down_cow : Int
  probability_quick_movements : Int
  probability_no_event : Int
  stage1_raw_response : Str
deriving DecidableEq

def mkStage1Row (r : Stage1Src) : Stage1Row :=
  { session_id := r.session_id
    farm_id := r.farm_id
    camera_id := r.camera_id
    stage1_timestamp := r.processing_timestamp
    stage1_category := r.highest_probability_category
    stage1_confidence := r.highest_probability_value
    stage1_should_forward := r.should_forward
    frame_uris := r.frame_uris
    trigger_frame_uri := r.frame_uris.head?
    blk_file := r.frame_uris.head?.map (extractOrEmpty scanSlashBlk)
    frame_timestamp_key := r.frame_uris.head?.map (extractOrEmpty scanTsKey)
    probability_animal_husbandry := r.probability_animal_husbandry
    probability_down_cow := r.probability_down_cow
    probability_quick_movements := r.probability_quick_movements
    probability_no_event := r.probability_no_event
    stage1_raw_response := r.gemini_raw_response }

/-- A row of the stage2_data CTE. -/
structure Stage2Row where
  stage2_inference_id : Str
  camera_id : Str
  stage2_timestamp : Timestamp
  stage2_classification : Str
  stage2_confidence : Int
  stage2_should_forward : Bool
  video_gcs_path : Str
  video_filename : Str
  blk_file : Str
  video_timestamp_key : Str
  stage2_raw_response : Str
deriving DecidableEq

def mkStage2Row (r : Stage2Src) : Stage2Row :=
  { stage2_inference_id := r.inference_id
    camera_id := r.camera_id
    stage2_timestamp := r.inference_timestamp
    stage2_classification := r.classification
    stage2_confidence := r.max_probability_score
    stage2_should_forward := r.should_forward
    video_gcs_path := r.video_gcs_path
    video_filename := r.file_name
    blk_file := extractOrEmpty anchoredBlk r.file_name
    video_timestamp_key := extractOrEmpty scanTsKey r.file_name
    stage2_raw_response := r.model_votes }

/-- SQL three-valued equality restricted to what the join needs: a NULL
operand never compares equal. -/
def sqlEqStr (a b : Option Str) : Bool :=
  match a, b with
  | some x, some y => x == y
  | _, _ => false

/-- The LEFT JOIN ON predicate: same camera, equal blk_file, equal
timestamp key (SQL equality, so a NULL key matches nothing). -/
def joinPred (a : Stage1Row) (b : Stage2Row) : Bool :=
  a.camera_id == b.camera_id &&
  sqlEqStr a.blk_file (some b.blk_file) &&
  sqlEqStr a.frame_timestamp_key (some b.video_timestamp_key)

/-- REGEXP_REPLACE with a literal pattern: replace every non-overlapping
occurrence, scanning left to right.  The fuel argument only bounds the
recursion (each step consumes at least one character, so fuel equal to the
length of the string never runs out). -/
def replaceAllFuel (pat rep : Str) : Nat → Str → Str
  | 0, s => s
  | _ + 1, [] => []
  | fuel + 1, c :: rest =>
      if pat.isPrefixOf (c :: rest) then
        rep ++ replaceAllFuel pat rep fuel (rest.drop (pat.length - 1))
      else c :: replaceAllFuel pat rep fuel rest

def replaceAllSub (pat rep : Str) (s : Str) : Str :=
  replaceAllFuel pat rep s.length s

/-- REGEXP_REPLACE of an escaped-dot jpg pattern anchored at the end of the
string: the pattern can only match a trailing .jpg, replaced by .mp4. -/
def replaceJpgSuffix (s : Str) : Str :=
  if (".jpg".toList).isSuffixOf s then s.take (s.length - 4) ++ ".mp4".toList
  else s

/-- The fallback video path transform applied to the trigger frame uri when
Stage 2 is missing. -/
def deriveVideoTransform (s : Str) : Str :=
  replaceJpgSuffix (replaceAllSub ("frames-to-analyze".toList) ("video-to-analyze".toList) s)

/-- A row of the final SELECT.  s1 carries all projected Stage 1 columns,
s2 the Stage 2 columns (none when the LEFT JOIN found no match). -/
structure LinkedRow where
  s1 : Stage1Row
  s2 : Option Stage2Row
  frame_count : Nat
  blk_file : Option Str
  event_timestamp : Option Str
  video_url_derived : Option Str
deriving DecidableEq

def mkLinked (a : Stage1Row) (b : Option Stage2Row) : LinkedRow :=
  { s1 := a
    s2 := b
    frame_count := a.frame_uris.length
    blk_file := a.blk_file
    event_timestamp := a.frame_timestamp_key
    video_url_derived :=
      match b with
      | some s2r => some s2r.video_gcs_path
      | none => a.trigger_frame_uri.map deriveVideoTransform }

/-- The rows a single left-side row contributes to the LEFT JOIN: one row
per matching right-side row, or a single NULL-extended row if none match. -/
def joinBlock (s2s : List Stage2Row) (a : Stage1Row) : List LinkedRow :=
  match s2s.filter (fun b => joinPred a b) with
  | [] => [mkLinked a none]
  | ms => ms.map (fun b => mkLinked a (some b))

def flatMapL (f : α → List β) : List α → List β
  | [] => []
  | a :: l => f a ++ flatMapL f l

def linkedJoin (s1s : List Stage1Row) (s2s : List Stage2Row) : List LinkedRow :=
  flatMapL (joinBlock s2s) s1s

/-- Value of a farm in the farm mapping dictionary; every field is optional
because the Python code reads them with dict.get. -/
structure FarmInfo where
  tenant_id : Option Str
  tenant_name : Option Str
  name : Option Str
deriving DecidableEq

abbrev FarmMapping := List (Str × FarmInfo)

/-- The dynamic shape of the tenant/farm/camera filter arguments: Python
None, a plain string, or a (display_name, id) dropdown tuple. -/
inductive PyStrArg where
  | null : PyStrArg
  | str : Str → PyStrArg
  | pair : Str → Str → PyStrArg
deriving DecidableEq

/-- Python truthiness of the argument: None and the empty string are falsy,
a two-element tuple is truthy. -/
def PyStrArg.truthy : PyStrArg → Bool
  | .null => false
  | .str s => !s.isEmpty
  | .pair _ _ => true

/-- Python equality of the argument against a string: a tuple or None never
equals a string. -/
def PyStrArg.eqStr : PyStrArg → Str → Bool
  | .str s, t => s == t
  | _, _ => false

/-- Python equality of a value read with dict.get (string or missing)
against the filter argument. -/
def pyEqOpt (o : Option Str) (a : PyStrArg) : Bool :=
  match o, a with
  | some s, .str t => s == t
  | _, _ => false

/-- The farm ids whose mapping entry carries exactly this tenant_id, as
collected by the tenant branch of query_stage1_stage2_linked. -/
def tenantFarmIds (fm : FarmMapping) (t : PyStrArg) : List Str :=
  (fm.filter (fun kv => pyEqOpt kv.2.tenant_id t)).map (fun kv => kv.1)

/-- Parameters of query_stage1_stage2_linked.  The date string is modelled
by the calendar day it denotes. -/
structure QueryParams where
  queryDay : Int
  start_time : Option Str
  end_time : Option Str
  tenant_id : PyStrArg
  farm_id : Option Str
  camera_id : Option Str
  should_forward_only : Bool
  limit : Nat
deriving DecidableEq

def countColon (s : Str) : Nat := (s.filter (fun c => c = ':')).length

def allLit : Str := "All".toList

/-- The dynamic filter fragments, in source order (tenant, start_time,
end_time, farm, camera, should_forward); every fragment reads only Stage 1
columns, which the types make explicit. -/
def tenantFilterFrag (fm : FarmMapping) (p : QueryParams) : List (Stage1Row → Bool) :=
  if p.tenant_id.truthy && !(p.tenant_id.eqStr allLit) then
    (let ids := tenantFarmIds fm p.tenant_id
     if ids.isEmpty then [fun _ => false]
     else [fun r => ids.contains r.farm_id])
  else []

def startTimeFrag (p : QueryParams) : List (Stage1Row → Bool) :=
  match p.start_time with
  | some s =>
      if s.isEmpty then []
      else
        let st := if countColon s = 2 then s else s ++ (":00".toList)
        [fun r => strLe st r.stage1_timestamp.hms]
  | none => []

def endTimeFrag (p : QueryParams) : List (Stage1Row → Bool) :=
  match p.end_time with
  | some s =>
      if s.isEmpty then []
      else
        let et := if countColon s = 2 then s else s ++ (":59".toList)
        [fun r => strLe r.stage1_timestamp.hms et]
  | none => []

def farmFrag (p : QueryParams) : List (Stage1Row → Bool) :=
  match p.farm_id with
  | some f => if !f.isEmpty && !(f == allLit) then [fun r => r.farm_id == f] else []
  | none => []

def cameraFrag (p : QueryParams) : List (Stage1Row → Bool) :=
  match p.camera_id with
  | some c => if !c.isEmpty && !(c == allLit) then [fun r => r.camera_id == c] else []
  | none => []

def forwardFrag (p : QueryParams) : List (Stage1Row → Bool) :=
  if p.should_forward_only then [fun r => r.stage1_should_forward] else []

def s1Filters (fm : FarmMapping) (p : QueryParams) : List (Stage1Row → Bool) :=
  tenantFilterFrag fm p ++ startTimeFrag p ++ endTimeFrag p ++ farmFrag p ++
  cameraFrag p ++ forwardFrag p

/-- Conjunction of the filter fragments on a Stage 1 row (an empty filter
list is the trivial predicate 1=1). -/
def s1Pass (fm : FarmMapping) (p : QueryParams) (a : Stage1Row) : Bool :=
  (s1Filters fm p).all (fun f => f a)

/-- The WHERE clause evaluated on a joined row; all fragments reference
only s1 columns. -/
def whereEval (fm : FarmMapping) (p : QueryParams) (r : LinkedRow) : Bool :=
  s1Pass fm p r.s1

/-- The stage1_data CTE: Stage 1 rows of the requested calendar day. -/
def stage1Data (t1 : List Stage1Src) (d : Int) : List Stage1Row :=
  (t1.filter (fun r => decide (r.processing_timestamp.day = d))).map mkStage1Row

/-- The stage2_data CTE: Stage 2 rows whose date lies BETWEEN
DATE_SUB(date, 2) AND DATE_ADD(date, 2), inclusive on both ends. -/
def stage2Data (t2 : List Stage2Src) (d : Int) : List Stage2Row :=
  (t2.filter (fun r =>
      decide (d - 2 ≤ r.inference_timestamp.day) &&
      decide (r.inference_timestamp.day ≤ d + 2))).map mkStage2Row

def insertLe (le : α → α → Bool) (a : α) : List α → List α
  | [] => [a]
  | b :: l => if le a b then a :: b :: l else b :: insertLe le a l

/-- Insertion sort, the model of ORDER BY: a sorted permutation of the
input (ties in an unspecified order, as in SQL). -/
def sortByLe (le : α → α → Bool) : List α → List α
  | [] => []
  | a :: l => insertLe le a (sortByLe le l)

/-- ORDER BY s1.stage1_timestamp DESC. -/
def rowLe (a b : LinkedRow) : Bool :=
  tsLeB b.s1.stage1_timestamp a.s1.stage1_timestamp

/-- The result set of the SQL statement of query_stage1_stage2_linked:
CTEs, LEFT JOIN, WHERE, ORDER BY timestamp DESC, LIMIT. -/
def queryStage1Stage2Rows (fm : FarmMapping) (t1 : List Stage1Src)
    (t2 : List Stage2Src) (p : QueryParams) : List LinkedRow :=
  (sortByLe rowLe
    ((linkedJoin (stage1Data t1 p.queryDay) (stage2Data t2 p.queryDay)).filter
      (whereEval fm p))).take p.limit

/-- A Python exception as the retry classifier sees it: the type name and
the message text. -/
structure PyErr where
  etype : Str
  msg : Str
deriving DecidableEq

def toLowerStr (s : Str) : Str := s.map Char.toLower

/-- Substring containment (the Python in operator on strings). -/
def containsSub (needle : Str) : Str → Bool
  | [] => needle.isEmpty
  | c :: t => needle.isPrefixOf (c :: t) || containsSub needle t

/-- The keyword list of _execute_with_retry. -/
def connKeywords : List Str :=
  ["connection", "closed", "timeout", "broken pipe",
   "session", "expired", "invalid session",
   "error during request", "request to server"].map String.toList

/-- Connection-class error test: type name RequestError, or any keyword
occurring in the lower-cased message. -/
def isConnectionError (e : PyErr) : Bool :=
  e.etype == "RequestError".toList ||
  connKeywords.any (fun k => containsSub k (toLowerStr e.msg))

/-- Service connection state: the lazily created shared handle (by
generation number) and the next fresh generation. -/
structure SvcState where
  conn : Option Nat
  nextId : Nat
deriving DecidableEq

/-- The connection property: reuse the cached handle or create one. -/
def getConnection (st : SvcState) : Nat × SvcState :=
  match st.conn with
  | some c => (c, st)
  | none => (st.nextId, ⟨some st.nextId, st.nextId + 1⟩)

/-- The reconnect step: close the old handle (a failing close is swallowed,
both branches behave identically), drop it, and create a fresh one. -/
def reconnectSvc (st : SvcState) (closeRes : Option PyErr) : SvcState :=
  match closeRes with
  | some _ => ⟨some st.nextId, st.nextId + 1⟩
  | none => ⟨some st.nextId, st.nextId + 1⟩

structure ExecOutcome (α : Type) where
  result : Except PyErr α
  finalState : SvcState
  attemptsMade : Nat
  reconnects : Nat

/-- The attempt loop of _execute_with_retry.  Each iteration runs the
operation on the current connection; a connection-class failure before the
last attempt reconnects and retries, any other failure (or the last
attempt) re-raises.  The fallback after the loop is only reachable with
maxRetries = 0, where Python would raise the stored None. -/
def retryLoop (qf : Nat → Except PyErr α) (maxRetries : Nat)
    (closeRes : Option PyErr) (attempt : Nat) (st : SvcState)
    (atts recs : Nat) : ExecOutcome α :=
  if attempt < maxRetries then
    let pr := getConnection st
    match qf pr.1 with
    | .ok v => ⟨.ok v, pr.2, atts + 1, recs⟩
    | .error e =>
        if isConnectionError e && decide (attempt < maxRetries - 1) then
          retryLoop qf maxRetries closeRes (attempt + 1)
            (reconnectSvc pr.2 closeRes) (atts + 1) (recs + 1)
        else ⟨.error e, pr.2, atts + 1, recs⟩
  else ⟨.error ⟨"TypeError".toList, "last error was none".toList⟩, st, atts, recs⟩
termination_by maxRetries - attempt
decreasing_by omega

/-- _execute_with_retry, called with its default of 2 attempts unless
overridden. -/
def execute_with_retry (qf : Nat → Except PyErr α) (maxRetries : Nat)
    (closeRes : Option PyErr) (st : SvcState) : ExecOutcome α :=
  retryLoop qf maxRetries closeRes 0 st 0 0

/-- Per-connection behaviour of the warehouse: the error raised while
executing on that connection, or none for success with the given value. -/
def qfOf (behavior : Nat → Option PyErr) (val : α) (c : Nat) : Except PyErr α :=
  match behavior c with
  | some e => Except.error e
  | none => Except.ok val

/-- The try/except shell shared by the listing methods: run the operation
through the retry executor and fall back to a fixed value on any error. -/
def runGuarded (val : α) (fallback : α) (behavior : Nat → Option PyErr)
    (closeRes : Option PyErr) (st : SvcState) : α × SvcState :=
  let out := execute_with_retry (qfOf behavior val) 2 closeRes st
  match out.result with
  | .ok v => (v, out.finalState)
  | .error _ => (fallback, out.finalState)

/-- query_stage1_stage2_linked: execute the SQL through the retry executor;
on failure return an empty result set and print the descriptive status
lines instead of raising. -/
def query_stage1_stage2_linked (fm : FarmMapping) (t1 : List Stage1Src)
    (t2 : List Stage2Src) (p : QueryParams) (behavior : Nat → Option PyErr)
    (closeRes : Option PyErr) (st : SvcState) :
    List LinkedRow × SvcState × List Str :=
  let out := execute_with_retry (qfOf behavior (queryStage1Stage2Rows fm t1 t2 p)) 2 closeRes st
  match out.result with
  | .ok v => (v, out.finalState, [])
  | .error e =>
      ([], out.finalState,
       ["ERROR querying data".toList,
        "Error type: ".toList ++ e.etype,
        "Error message: ".toList ++ e.msg])

def allPair : Str × Str := (allLit, allLit)

def lookupInfo (fm : FarmMapping) (fid : Str) : FarmInfo :=
  match fm.find? (fun kv => kv.1 == fid) with
  | some kv => kv.2
  | none => ⟨none, none, none⟩

def pairNameLe (a b : Str × Str) : Bool := strLe a.1 b.1

/-- SELECT DISTINCT farm_id ... ORDER BY farm_id over the Stage 1 table for
one day (farm_id is non-null in the model, matching the data model). -/
def distinctFarmIds (t1 : List Stage1Src) (d : Int) : List Str :=
  sortByLe strLe ((t1.filter (fun r => decide (r.processing_timestamp.day = d))).map
      (fun r => r.farm_id)).dedup

/-- Body of get_available_tenants: map farm ids through the mapping,
keep truthy tenant ids, dedupe, sort by display name, put the All pair
first. -/
def tenantsFromFarmRows (fm : FarmMapping) (rows : List Str) : List (Str × Str) :=
  let pairs := rows.filterMap (fun fid =>
    let info := lookupInfo fm fid
    match info.tenant_id with
    | some tid =>
        if tid.isEmpty then none
        else some (info.tenant_name.getD ("Unknown".toList), tid)
    | none => none)
  allPair :: sortByLe pairNameLe pairs.dedup

def get_available_tenants (fm : FarmMapping) (t1 : List Stage1Src) (d : Int)
    (behavior : Nat → Option PyErr) (closeRes : Option PyErr) (st : SvcState) :
    List (Str × Str) × SvcState :=
  runGuarded (tenantsFromFarmRows fm (distinctFarmIds t1 d)) [allPair]
    behavior closeRes st

/-- The tuple-unwrapping idiom: second component if the argument is a
tuple, the argument itself otherwise. -/
def unwrapArg : PyStrArg → PyStrArg
  | .pair _ b => .str b
  | a => a

/-- Body of get_available_farms over the fetched distinct farm ids. -/
def farmsFromRows (fm : FarmMapping) (actual : PyStrArg) (rows : List Str) :
    List (Str × Str) :=
  let farms := rows.filterMap (fun fid =>
    let info := lookupInfo fm fid
    let fname := info.name.getD fid
    if actual.truthy && !(actual.eqStr allLit) then
      if pyEqOpt info.tenant_id actual then some (fname, fid) else none
    else some (fname, fid))
  allPair :: sortByLe pairNameLe farms

def get_available_farms (fm : FarmMapping) (t1 : List Stage1Src) (d : Int)
    (tenant_id : PyStrArg) (behavior : Nat → Option PyErr)
    (closeRes : Option PyErr) (st : SvcState) : List (Str × Str) × SvcState :=
  let actual := unwrapArg tenant_id
  runGuarded (farmsFromRows fm actual ((distinctFarmIds t1 d).take 100))
    [allPair] behavior closeRes st

structure CameraInfo where
  name : Option Str
deriving DecidableEq

abbrev CameraMapping := List (Str × CameraInfo)

def lookupCam (cm : CameraMapping) (cid : Str) : CameraInfo :=
  match cm.find? (fun kv => kv.1 == cid) with
  | some kv => kv.2
  | none => ⟨none⟩

/-- SELECT DISTINCT camera_id with the optional farm filter, ORDER BY,
LIMIT 100. -/
def distinctCameraIds (t1 : List Stage1Src) (d : Int) (actual : PyStrArg) :
    List Str :=
  (sortByLe strLe ((t1.filter (fun r =>
        decide (r.processing_timestamp.day = d) &&
        (if actual.truthy && !(actual.eqStr allLit) then actual.eqStr r.farm_id
         else true))).map (fun r => r.camera_id)).dedup).take 100

def camerasFromRows (cm : CameraMapping) (rows : List Str) : List (Str × Str) :=
  let cams := rows.map (fun cid => ((lookupCam cm cid).name.getD cid, cid))
  allPair :: sortByLe pairNameLe cams

def get_available_cameras (cm : CameraMapping) (t1 : List Stage1Src) (d : Int)
    (farm_id : PyStrArg) (behavior : Nat → Option PyErr)
    (closeRes : Option PyErr) (st : SvcState) : List (Str × Str) × SvcState :=
  let actual := unwrapArg farm_id
  runGuarded (camerasFromRows cm (distinctCameraIds t1 d actual)) [allPair]
    behavior closeRes st

/-- State of the TempFileManager of utils/cleanup.py. -/
structure TempFileManager where
  temp_video_files : List Str
  temp_gif_files : List Str
  max_videos : Nat
  max_gifs : Nat
deriving DecidableEq

/-- track_video: append, then when over the bound delete the files before
the last max_videos and keep only those.  Returns the new state and the
list of evicted (unlinked) files, oldest first. -/
def track_video (m : TempFileManager) (fp : Str) : TempFileManager × List Str :=
  let files := m.temp_video_files ++ [fp]
  if m.max_videos < files.length then
    ({ m with temp_video_files := files.drop (files.length - m.max_videos) },
     files.take (files.length - m.max_videos))
  else ({ m with temp_video_files := files }, [])

/-- track_gif, same policy with the GIF bound. -/
def track_gif (m : TempFileManager) (fp : Str) : TempFileManager × List Str :=
  let files := m.temp_gif_files ++ [fp]
  if m.max_gifs < files.length then
    ({ m with temp_gif_files := files.drop (files.length - m.max_gifs) },
     files.take (files.length - m.max_gifs))
  else ({ m with temp_gif_files := files }, [])

def c7err : PyErr := ⟨"PermissionError".toList, "permission denied on table".toList⟩

def c7params : QueryParams := ⟨0, none, none, PyStrArg.null, none, none, false, 50⟩

def c4src : Stage2Src :=
  ⟨"i1".toList, "cam1".toList, ⟨2, "01:00:00".toList⟩, "down_cow".toList, 8,
   true, "gs://b/video-to-analyze/x/v.mp4".toList,
   "042_0000015_2026-01-21T08:15:30.mp4".toList, "votes".toList⟩

def c4late : Stage2Src :=
  { c4src with inference_timestamp := ⟨3, "01:00:00".toList⟩ }

def c5src : Stage1Src :=
  ⟨"sa".toList, "f1".toList, "cam1".toList, ⟨0, "08:15:30".toList⟩,
   "down_cow".toList, 9, true,
   ["gs://b/frames-to-analyze/x/042_0000015_2026-01-21T08:15:30.jpg".toList],
   1, 2, 3, 4, "raw".toList⟩

def c5params : QueryParams := ⟨0, none, none, PyStrArg.null, none, none, false, 50⟩

def c6src : Stage1Src :=
  ⟨"sa".toList, "f1".toList, "cam1".toList, ⟨0, "08:15:30".toList⟩,
   "down_cow".toList, 9, true,
   ["gs://b/frames-to-analyze/x/042_0000015_2026-01-21T08:15:30.jpg".toList],
   1, 2, 3, 4, "raw".toList⟩

def c6fmEmpty : FarmMapping :=
  [("f9".toList, ⟨some ("t9".toList), some ("T Nine".toList), some ("Farm Nine".toList)⟩)]

def c6fm : FarmMapping :=
  [("f1".toList, ⟨some ("t1".toList), some ("T One".toList), some ("Farm One".toList)⟩)]

def c6params : QueryParams :=
  ⟨0, none, none, PyStrArg.str ("t1".toList), none, none, false, 50⟩

def c1srcA : Stage1Src :=
  ⟨"sa".toList, "f1".toList, "cam1".toList, ⟨0, "08:15:30".toList⟩,
   "down_cow".toList, 9, true,
   ["gs://b/frames-to-analyze/x/042_0000015_2026-01-21T08:15:30.jpg".toList],
   1, 2, 3, 4, "raw".toList⟩

def c1srcB : Stage1Src :=
  ⟨"sb".toList, "f1".toList, "cam1".toList, ⟨0, "09:00:00".toList⟩,
   "no_event".toList, 2, false,
   ["gs://b/frames-to-analyze/x/042_0000016_2026-01-21T09:00:00.jpg".toList],
   1, 2, 3, 4, "raw".toList⟩

def c1params : QueryParams := ⟨0, none, none, PyStrArg.null, none, none, false, 1⟩

def c1params50 : QueryParams := ⟨0, none, none, PyStrArg.null, none, none, false, 50⟩

def c2path : Str := "042_0000015_2026-01-21T08:15:30.jpg".toList

def c2blk : Str := "042_0000015".toList

def c2ts : Str := "2026-01-21T08:15:30".toList

def c2pre : Str := "gs://b/frames-to-analyze/x".toList

theorem digits_sound : ∀ (n : Nat) (cs d r : Str), digits n cs = some (d, r) →
    cs = d ++ r ∧ d.length = n ∧ d.all isDig = true := by
  intro n
  induction n with
  | zero =>
      intro cs d r h
      simp [digits] at h
      simp [h.1, h.2]
  | succ m ih =>
      intro cs d r h
      cases cs with
      | nil => simp [digits] at h
      | cons c cs2 =>
        simp only [digits] at h
        by_cases hc : isDig c = true
        · rw [if_pos hc] at h
          cases hd : digits m cs2 with
          | none => rw [hd] at h; simp at h
          | some p =>
            rw [hd] at h
            obtain ⟨d2, r2⟩ := p
            simp at h
            obtain ⟨hdd, hrr⟩ := h
            obtain ⟨h1, h2, h3⟩ := ih cs2 d2 r2 hd
            subst hdd hrr h1
            simp [h2, h3, hc]
        · rw [if_neg hc] at h; simp at h

theorem digits_of_spec : ∀ (d : Str) (n : Nat) (r : Str), d.length = n →
    d.all isDig = true → digits n (d ++ r) = some (d, r) := by
  intro d
  induction d with
  | nil => intro n r hn _; subst hn; simp [digits]
  | cons c d2 ih =>
      intro n r hn hall
      subst hn
      simp only [List.all_cons, Bool.and_eq_true] at hall
      simp [digits, hall.1, ih d2.length r rfl hall.2]

theorem matchToks_sound : ∀ (ps : List Tok) (cs g r : Str),
    matchToks ps cs = some (g, r) → cs = g ++ r := by
  intro ps
  induction ps with
  | nil => intro cs g r h; simp [matchToks] at h; simp [h.1, h.2]
  | cons t ps2 ih =>
      intro cs g r h
      cases t with
      | dig n =>
        cases hd : digits n cs with
        | none => simp [matchToks, hd] at h
        | some p =>
          obtain ⟨d, r1⟩ := p
          cases hm : matchToks ps2 r1 with
          | none => simp [matchToks, hd, hm] at h
          | some q =>
            obtain ⟨g2, r2⟩ := q
            simp only [matchToks, hd, hm, Option.some.injEq, Prod.mk.injEq] at h
            obtain ⟨hg, hr⟩ := h
            obtain ⟨h1, _, _⟩ := digits_sound n cs d r1 hd
            subst hg hr h1
            simp [ih r1 g2 r2 hm]
      | lit a =>
        cases cs with
        | nil => simp [matchToks] at h
        | cons c cs2 =>
          by_cases hc : c = a
          · cases hm : matchToks ps2 cs2 with
            | none => simp [matchToks, hc, hm] at h
            | some q =>
              obtain ⟨g2, r2⟩ := q
              simp only [matchToks, if_pos hc, hm, Option.some.injEq, Prod.mk.injEq] at h
              obtain ⟨hg, hr⟩ := h
              subst hg hr hc
              simp [ih cs2 g2 r2 hm]
          · simp [matchToks, hc] at h

theorem matchToks_ext : ∀ (ps : List Tok) (cs g r : Str),
    matchToks ps cs = some (g, r) → ∀ r2, matchToks ps (g ++ r2) = some (g, r2) := by
  intro ps
  induction ps with
  | nil =>
      intro cs g r h r2
      simp [matchToks] at h
      simp [matchToks, h.1]
  | cons t ps2 ih =>
      intro cs g r h r2
      cases t with
      | dig n =>
        cases hd : digits n cs with
        | none => simp [matchToks, hd] at h
        | some p =>
          obtain ⟨d, r1⟩ := p
          cases hm : matchToks ps2 r1 with
          | none => simp [matchToks, hd, hm] at h
          | some q =>
            obtain ⟨g2, r3⟩ := q
            simp only [matchToks, hd, hm, Option.some.injEq, Prod.mk.injEq] at h
            obtain ⟨hg, hr⟩ := h
            subst hg hr
            obtain ⟨_, hlen, hall⟩ := digits_sound n cs d r1 hd
            have hdig : digits n (d ++ (g2 ++ r2)) = some (d, g2 ++ r2) :=
              digits_of_spec d n (g2 ++ r2) hlen hall
            simp [matchToks, hdig, ih r1 g2 r3 hm r2]
      | lit a =>
        cases cs with
        | nil => simp [matchToks] at h
        | cons c cs2 =>
          by_cases hc : c = a
          · cases hm : matchToks ps2 cs2 with
            | none => simp [matchToks, hc, hm] at h
            | some q =>
              obtain ⟨g2, r3⟩ := q
              simp only [matchToks, if_pos hc, hm, Option.some.injEq, Prod.mk.injEq] at h
              obtain ⟨hg, hr⟩ := h
              subst hg hr
              simp [matchToks, ih cs2 g2 r3 hm r2]
          · simp [matchToks, hc] at h

theorem shapedBy_ext {ps : List Tok} {s : Str} (h : shapedBy ps s = true)
    (r : Str) : matchToks ps (s ++ r) = some (s, r) :=
  matchToks_ext ps s s [] (of_decide_eq_true h) r

theorem scanWith_fire {fire : Str → Option Str} {c : Char} {rest : Str}
    {g : Str} (h : fire (c :: rest) = some g) :
    scanWith fire (c :: rest) = some g := by
  simp [scanWith, h]

theorem scanWith_skip {fire : Str → Option Str} : ∀ (pre rest : Str),
    (∀ i, i < pre.length → fire ((pre ++ rest).drop i) = none) →
    scanWith fire (pre ++ rest) = scanWith fire rest := by
  intro pre
  induction pre with
  | nil => intro rest _; rfl
  | cons c pre2 ih =>
      intro rest h
      have h0 : fire (c :: (pre2 ++ rest)) = none := by
        have h1 := h 0 (by simp)
        simpa using h1
      rw [List.cons_append]
      simp only [scanWith]
      rw [h0]
      exact ih rest (fun i hi => by
        have h2 := h (i + 1) (by simp; omega)
        simpa using h2)

theorem insertLe_perm (le : α → α → Bool) (a : α) :
    ∀ l : List α, List.Perm (insertLe le a l) (a :: l) := by
  intro l
  induction l with
  | nil => rfl
  | cons b t ih =>
      simp only [insertLe]
      by_cases h : le a b = true
      · rw [if_pos h]
      · rw [if_neg h]
        exact (ih.cons b).trans (List.Perm.swap a b t)

theorem sortByLe_nil (le : α → α → Bool) : sortByLe le ([] : List α) = [] := rfl

theorem sortByLe_perm (le : α → α → Bool) :
    ∀ l : List α, List.Perm (sortByLe le l) l := by
  intro l
  induction l with
  | nil => rfl
  | cons a t ih =>
      exact (insertLe_perm le a (sortByLe le t)).trans (ih.cons a)

theorem reconnectSvc_eq (st : SvcState) (closeRes : Option PyErr) :
    reconnectSvc st closeRes = ⟨some st.nextId, st.nextId + 1⟩ := by
  cases closeRes <;> rfl

/-- Closed form of the executor at its default of two attempts: run once on
the current connection; on a connection-class error reconnect and run once
more on the fresh connection; otherwise re-raise at once. -/
theorem execute_with_retry_two {α : Type} (qf : Nat → Except PyErr α)
    (closeRes : Option PyErr) (st : SvcState) :
    execute_with_retry qf 2 closeRes st =
      match qf (getConnection st).1 with
      | .ok v => ⟨.ok v, (getConnection st).2, 1, 0⟩
      | .error e =>
          if isConnectionError e then
            match qf (getConnection st).2.nextId with
            | .ok v =>
                ⟨.ok v, ⟨some (getConnection st).2.nextId,
                         (getConnection st).2.nextId + 1⟩, 2, 1⟩
            | .error e2 =>
                ⟨.error e2, ⟨some (getConnection st).2.nextId,
                             (getConnection st).2.nextId + 1⟩, 2, 1⟩
          else ⟨.error e, (getConnection st).2, 1, 0⟩ := by
  unfold execute_with_retry
  rw [retryLoop]
  simp only [show (0 : Nat) < 2 by omega, if_true]
  cases hq : qf (getConnection st).1 with
  | ok v => rfl
  | error e =>
      by_cases hc : isConnectionError e = true
      · simp only [hc, if_pos, Bool.true_and, show decide (0 < 2 - 1) = true by decide]
        rw [retryLoop]
        simp only [show (1 : Nat) < 2 by omega, if_true, reconnectSvc_eq]
        have hg : getConnection ⟨some (getConnection st).2.nextId,
            (getConnection st).2.nextId + 1⟩ =
            ((getConnection st).2.nextId,
             ⟨some (getConnection st).2.nextId, (getConnection st).2.nextId + 1⟩) := rfl
        rw [hg]
        cases hq2 : qf (getConnection st).2.nextId with
        | ok v => simp [hc]
        | error e2 =>
            simp only [hc, show decide (1 < 2 - 1) = false by decide,
              Bool.and_false, Bool.false_eq_true, if_false, if_true]
      · simp only [Bool.not_eq_true] at hc
        simp [hc]

/-- Claim C3: on a connection-class failure (RequestError type, or a
connection-related keyword in the message) on attempt 1, the executor
closes the stale connection (any close outcome is ignored), builds a fresh
connection and re-runs the operation exactly once, returning the attempt-2
result on success, with at most 2 attempts in total; on a
non-connection-class failure on attempt 1 it propagates the error at once,
with no reconnect and no retry. -/
theorem claim_C3_retry_bound {α : Type} (qf : Nat → Except PyErr α)
    (c0 n : Nat) (closeRes : Option PyErr) (e : PyErr) (v : α) :
    (qf c0 = .error e → isConnectionError e = true → qf n = .ok v →
      execute_with_retry qf 2 closeRes ⟨some c0, n⟩ =
        ⟨.ok v, ⟨some n, n + 1⟩, 2, 1⟩) ∧
    (qf c0 = .error e → isConnectionError e = false →
      execute_with_retry qf 2 closeRes ⟨some c0, n⟩ =
        ⟨.error e, ⟨some c0, n⟩, 1, 0⟩) ∧
    (∀ st : SvcState, (execute_with_retry qf 2 closeRes st).attemptsMade ≤ 2) := by
  refine ⟨?_, ?_, ?_⟩
  · intro h1 h2 h3
    rw [execute_with_retry_two]
    have hg : getConnection ⟨some c0, n⟩ = (c0, ⟨some c0, n⟩) := rfl
    rw [hg]
    simp only [h1, h2, if_true, h3]
  · intro h1 h2
    rw [execute_with_retry_two]
    have hg : getConnection ⟨some c0, n⟩ = (c0, ⟨some c0, n⟩) := rfl
    rw [hg]
    simp [h1, h2]
  · intro st
    rw [execute_with_retry_two]
    cases hq : qf (getConnection st).1 with
    | ok v => simp
    | error e1 =>
        by_cases hc : isConnectionError e1 = true
        · simp only [hc, if_true]
          cases hq2 : qf (getConnection st).2.nextId <;> simp
        · simp only [Bool.not_eq_true] at hc
          simp [hc]

theorem claim_C3_retry_bound_witness :
    (execute_with_retry
        (fun c => if c = 0 then Except.error ⟨"RequestError".toList, "boom".toList⟩
                  else Except.ok (42 : Nat)) 2 none ⟨some 0, 1⟩ =
      ⟨.ok 42, ⟨some 1, 2⟩, 2, 1⟩) ∧
    (execute_with_retry
        (fun _ => (Except.error ⟨"ValueError".toList, "bad sql".toList⟩ : Except PyErr Nat))
        2 none ⟨some 0, 1⟩ =
      ⟨.error ⟨"ValueError".toList, "bad sql".toList⟩, ⟨some 0, 1⟩, 1, 0⟩) :=
  ⟨(claim_C3_retry_bound
      (fun c => if c = 0 then Except.error ⟨"RequestError".toList, "boom".toList⟩
                else Except.ok (42 : Nat)) 0 1 none
      ⟨"RequestError".toList, "boom".toList⟩ 42).1
      rfl (by decide) rfl,
   ((claim_C3_retry_bound
      (fun _ => (Except.error ⟨"ValueError".toList, "bad sql".toList⟩ : Except PyErr Nat))
      0 1 none ⟨"ValueError".toList, "bad sql".toList⟩ 42).2).1
      rfl (by decide)⟩

theorem exec_ok_val {α : Type} (behavior : Nat → Option PyErr) (val : α)
    (closeRes : Option PyErr) (st : SvcState) (v : α)
    (h : (execute_with_retry (qfOf behavior val) 2 closeRes st).result = .ok v) :
    v = val := by
  rw [execute_with_retry_two] at h
  cases hb : behavior (getConnection st).1 with
  | none => simp [qfOf, hb] at h; exact h.symm
  | some e =>
      simp only [qfOf, hb] at h
      by_cases hc : isConnectionError e = true
      · simp only [hc, if_true] at h
        cases hb2 : behavior (getConnection st).2.nextId with
        | none => simp [hb2] at h; exact h.symm
        | some e2 => simp [hb2] at h
      · simp only [Bool.not_eq_true] at hc
        simp [hc] at h

/-- Claim C7: when the underlying execution of the linked query fails (for
any failure pattern of the warehouse, including after the retry is
exhausted), the method returns an explicitly empty result set together
with the descriptive status lines, instead of raising; on success the
caller receives exactly the result set of the SQL statement.  Either way
the caller gets a well-typed row list. -/
theorem claim_C7_error_boundary (fm : FarmMapping) (t1 : List Stage1Src)
    (t2 : List Stage2Src) (p : QueryParams) (behavior : Nat → Option PyErr)
    (closeRes : Option PyErr) (st : SvcState) :
    (∀ e : PyErr,
      (execute_with_retry (qfOf behavior (queryStage1Stage2Rows fm t1 t2 p))
          2 closeRes st).result = .error e →
      (query_stage1_stage2_linked fm t1 t2 p behavior closeRes st).1 = [] ∧
      ("Error message: ".toList ++ e.msg) ∈
        (query_stage1_stage2_linked fm t1 t2 p behavior closeRes st).2.2) ∧
    (∀ df : List LinkedRow,
      (execute_with_retry (qfOf behavior (queryStage1Stage2Rows fm t1 t2 p))
          2 closeRes st).result = .ok df →
      (query_stage1_stage2_linked fm t1 t2 p behavior closeRes st).1 =
        queryStage1Stage2Rows fm t1 t2 p) := by
  constructor
  · intro e he
    simp only [query_stage1_stage2_linked, he]
    simp
  · intro df hdf
    have hv := exec_ok_val behavior (queryStage1Stage2Rows fm t1 t2 p) closeRes st df hdf
    subst hv
    simp only [query_stage1_stage2_linked, hdf]

theorem claim_C7_error_boundary_witness :
    (query_stage1_stage2_linked [] [] [] c7params (fun _ => some c7err) none ⟨none, 0⟩).1 = [] ∧
    ("Error message: ".toList ++ c7err.msg) ∈
      (query_stage1_stage2_linked [] [] [] c7params (fun _ => some c7err) none ⟨none, 0⟩).2.2 :=
  (claim_C7_error_boundary [] [] [] c7params (fun _ => some c7err) none ⟨none, 0⟩).1
    c7err (by rw [execute_with_retry_two]; rfl)

/-- Claim C8: every result of get_available_tenants, get_available_farms
and get_available_cameras starts with the (All, All) sentinel pair, for
every warehouse behaviour, including failures (where the sentinel-only
list is returned). -/
theorem claim_C8_all_sentinel (fm : FarmMapping) (cm : CameraMapping)
    (t1 : List Stage1Src) (d : Int) (tenant_arg farm_arg : PyStrArg)
    (behavior : Nat → Option PyErr) (closeRes : Option PyErr) (st : SvcState) :
    (get_available_tenants fm t1 d behavior closeRes st).1.head? = some allPair ∧
    (get_available_farms fm t1 d tenant_arg behavior closeRes st).1.head? = some allPair ∧
    (get_available_cameras cm t1 d farm_arg behavior closeRes st).1.head? = some allPair := by
  refine ⟨?_, ?_, ?_⟩
  · unfold get_available_tenants runGuarded
    cases h : (execute_with_retry (qfOf behavior (tenantsFromFarmRows fm (distinctFarmIds t1 d))) 2 closeRes st).result with
    | ok v =>
        have hv := exec_ok_val _ _ _ _ _ h
        subst hv
        simp only [h]
        rfl
    | error e => simp only [h]; rfl
  · unfold get_available_farms runGuarded
    cases h : (execute_with_retry (qfOf behavior (farmsFromRows fm (unwrapArg tenant_arg) ((distinctFarmIds t1 d).take 100))) 2 closeRes st).result with
    | ok v =>
        have hv := exec_ok_val _ _ _ _ _ h
        subst hv
        simp only [h]
        rfl
    | error e => simp only [h]; rfl
  · unfold get_available_cameras runGuarded
    cases h : (execute_with_retry (qfOf behavior (camerasFromRows cm (distinctCameraIds t1 d (unwrapArg farm_arg)))) 2 closeRes st).result with
    | ok v =>
        have hv := exec_ok_val _ _ _ _ _ h
        subst hv
        simp only [h]
        rfl
    | error e => simp only [h]; rfl

theorem pyEqOpt_pair (o : Option Str) (a b : Str) :
    pyEqOpt o (PyStrArg.pair a b) = false := by
  cases o <;> rfl

/-- Claim C10: query_stage1_stage2_linked never unwraps a
(display_name, id) tuple passed as tenant_id; such a tuple is truthy,
differs from All, and equals no string tenant_id in the mapping, so the
tenant branch resolves an empty farm set, adds the always-false predicate,
and the query returns zero rows, whatever data the inner id owns;
get_available_farms and get_available_cameras, by contrast, unwrap the
tuple and behave exactly as with the bare id. -/
theorem claim_C10_tuple_tenant_not_unwrapped (fm : FarmMapping)
    (cm : CameraMapping) (t1 : List Stage1Src) (t2 : List Stage2Src)
    (p : QueryParams) (a b : Str) (d : Int) (behavior : Nat → Option PyErr)
    (closeRes : Option PyErr) (st : SvcState) :
    queryStage1Stage2Rows fm t1 t2 { p with tenant_id := PyStrArg.pair a b } = [] ∧
    get_available_farms fm t1 d (PyStrArg.pair a b) behavior closeRes st =
      get_available_farms fm t1 d (PyStrArg.str b) behavior closeRes st ∧
    get_available_cameras cm t1 d (PyStrArg.pair a b) behavior closeRes st =
      get_available_cameras cm t1 d (PyStrArg.str b) behavior closeRes st := by
  refine ⟨?_, rfl, rfl⟩
  have hids : tenantFarmIds fm (PyStrArg.pair a b) = [] := by
    simp [tenantFarmIds, pyEqOpt_pair]
  have hfrag : tenantFilterFrag fm { p with tenant_id := PyStrArg.pair a b } =
      [fun _ => false] := by
    simp [tenantFilterFrag, PyStrArg.truthy, PyStrArg.eqStr, hids]
  have hpass : ∀ r, whereEval fm { p with tenant_id := PyStrArg.pair a b } r = false := by
    intro r
    simp [whereEval, s1Pass, s1Filters, hfrag]
  have hfil : (linkedJoin (stage1Data t1 p.queryDay) (stage2Data t2 p.queryDay)).filter
      (whereEval fm { p with tenant_id := PyStrArg.pair a b }) = [] := by
    rw [List.filter_eq_nil_iff]
    intro r _
    simp [hpass r]
  simp [queryStage1Stage2Rows, hfil, sortByLe_nil]

/-- Claim C9: after every track_video call the tracked video list holds at
most max_videos = 10 files, and after every track_gif call the tracked GIF
list holds at most max_gifs = 20; when the bound is exceeded the evicted
files are exactly the oldest-inserted head of the appended list, and the
kept files are exactly the most recently tracked ones in insertion order. -/
theorem claim_C9_bounded_media_cache (vids gifs : List Str) (fp : Str) :
    (((track_video ⟨vids, gifs, 10, 20⟩ fp).1.temp_video_files.length ≤ 10) ∧
     (track_video ⟨vids, gifs, 10, 20⟩ fp).1.temp_video_files =
       (vids ++ [fp]).drop ((vids ++ [fp]).length - 10) ∧
     (track_video ⟨vids, gifs, 10, 20⟩ fp).2 =
       (vids ++ [fp]).take ((vids ++ [fp]).length - 10)) ∧
    (((track_gif ⟨vids, gifs, 10, 20⟩ fp).1.temp_gif_files.length ≤ 20) ∧
     (track_gif ⟨vids, gifs, 10, 20⟩ fp).1.temp_gif_files =
       (gifs ++ [fp]).drop ((gifs ++ [fp]).length - 20) ∧
     (track_gif ⟨vids, gifs, 10, 20⟩ fp).2 =
       (gifs ++ [fp]).take ((gifs ++ [fp]).length - 20)) := by
  constructor
  · by_cases h : 10 < vids.length + 1
    · refine ⟨?_, ?_, ?_⟩
      · simp [track_video, h, List.length_drop]
        omega
      · simp [track_video, h]
      · simp [track_video, h]
    · have h0 : vids.length + 1 - 10 = 0 := by omega
      refine ⟨?_, ?_, ?_⟩
      · simp [track_video, h]
        omega
      · simp [track_video, h, h0]
      · simp [track_video, h, h0]
  · by_cases h : 20 < gifs.length + 1
    · refine ⟨?_, ?_, ?_⟩
      · simp [track_gif, h, List.length_drop]
        omega
      · simp [track_gif, h]
      · simp [track_gif, h]
    · have h0 : gifs.length + 1 - 20 = 0 := by omega
      refine ⟨?_, ?_, ?_⟩
      · simp [track_gif, h]
        omega
      · simp [track_gif, h, h0]
      · simp [track_gif, h, h0]

theorem mem_flatMapL {f : α → List β} {x : β} :
    ∀ {l : List α}, x ∈ flatMapL f l ↔ ∃ a, a ∈ l ∧ x ∈ f a := by
  intro l
  induction l with
  | nil => simp [flatMapL]
  | cons a t ih =>
      simp only [flatMapL, List.mem_append, ih, List.mem_cons]
      constructor
      · rintro (hx | ⟨b, hb, hx⟩)
        · exact ⟨a, Or.inl rfl, hx⟩
        · exact ⟨b, Or.inr hb, hx⟩
      · rintro ⟨b, hb | hb, hx⟩
        · subst hb; exact Or.inl hx
        · exact Or.inr ⟨b, hb, hx⟩

theorem joinBlock_cases {s2s : List Stage2Row} {a : Stage1Row} {row : LinkedRow}
    (h : row ∈ joinBlock s2s a) :
    row = mkLinked a none ∨
    ∃ b, b ∈ s2s.filter (fun x => joinPred a x) ∧ row = mkLinked a (some b) := by
  unfold joinBlock at h
  cases hf : s2s.filter (fun x => joinPred a x) with
  | nil =>
      rw [hf] at h
      simp at h
      exact Or.inl h
  | cons m ms =>
      rw [hf] at h
      simp only [List.mem_map] at h
      obtain ⟨b, hb, hrow⟩ := h
      exact Or.inr ⟨b, hf ▸ hb, hrow.symm⟩

theorem mem_query {fm : FarmMapping} {t1 : List Stage1Src}
    {t2 : List Stage2Src} {p : QueryParams} {row : LinkedRow}
    (h : row ∈ queryStage1Stage2Rows fm t1 t2 p) :
    row ∈ linkedJoin (stage1Data t1 p.queryDay) (stage2Data t2 p.queryDay) ∧
    whereEval fm p row = true := by
  unfold queryStage1Stage2Rows at h
  have h1 := List.mem_of_mem_take h
  have h2 := (sortByLe_perm rowLe _).mem_iff.mp h1
  exact ⟨List.mem_of_mem_filter h2, List.of_mem_filter h2⟩

theorem stage2Data_day {t2 : List Stage2Src} {d : Int} {b : Stage2Row}
    (h : b ∈ stage2Data t2 d) :
    d - 2 ≤ b.stage2_timestamp.day ∧ b.stage2_timestamp.day ≤ d + 2 := by
  unfold stage2Data at h
  simp only [List.mem_map] at h
  obtain ⟨src, hsrc, hb⟩ := h
  have hf := List.of_mem_filter hsrc
  simp only [Bool.and_eq_true, decide_eq_true_eq] at hf
  subst hb
  exact hf

/-- Claim C4: the Stage 2 side of the join considers exactly the Stage 2
rows whose timestamp date lies between the requested date minus 2 days and
plus 2 days inclusive; a row stamped exactly 2 days after the date is
eligible, one stamped 3 days after never enters the stage2_data window and
so is never matched into any result row. -/
theorem claim_C4_widened_window (t2 : List Stage2Src) (d : Int) (r : Stage2Src) :
    (r ∈ t2 → r.inference_timestamp.day = d + 2 → mkStage2Row r ∈ stage2Data t2 d) ∧
    (∀ x, x ∈ stage2Data t2 d →
      d - 2 ≤ x.stage2_timestamp.day ∧ x.stage2_timestamp.day ≤ d + 2) ∧
    (r.inference_timestamp.day = d + 3 → mkStage2Row r ∉ stage2Data t2 d) ∧
    (∀ fm t1 p (row : LinkedRow) (b : Stage2Row), p.queryDay = d →
      row ∈ queryStage1Stage2Rows fm t1 t2 p → row.s2 = some b →
      d - 2 ≤ b.stage2_timestamp.day ∧ b.stage2_timestamp.day ≤ d + 2) := by
  refine ⟨?_, ?_, ?_, ?_⟩
  · intro hmem hday
    unfold stage2Data
    rw [List.mem_map]
    refine ⟨r, List.mem_filter.mpr ⟨hmem, ?_⟩, rfl⟩
    simp only [Bool.and_eq_true, decide_eq_true_eq, hday]
    omega
  · intro x hx
    exact stage2Data_day hx
  · intro hday hmem
    have hb := stage2Data_day hmem
    have : (mkStage2Row r).stage2_timestamp.day = r.inference_timestamp.day := rfl
    rw [this, hday] at hb
    omega
  · intro fm t1 p row b hd hrow hs2
    obtain ⟨hjoin, _⟩ := mem_query hrow
    unfold linkedJoin at hjoin
    rw [mem_flatMapL] at hjoin
    obtain ⟨a, _, hblock⟩ := hjoin
    rcases joinBlock_cases hblock with hnone | ⟨b2, hb2, heq⟩
    · rw [hnone] at hs2
      simp [mkLinked] at hs2
    · rw [heq] at hs2
      have hb2b : b2 = b := by simpa [mkLinked] using hs2
      subst hb2b
      have hmem2 := List.mem_of_mem_filter hb2
      rw [hd] at hmem2
      exact stage2Data_day hmem2

theorem claim_C4_widened_window_witness :
    mkStage2Row c4src ∈ stage2Data [c4src, c4late] 0 ∧
    mkStage2Row c4late ∉ stage2Data [c4src, c4late] 0 ∧
    ((0 : Int) - 2 ≤ (mkStage2Row c4src).stage2_timestamp.day ∧
      (mkStage2Row c4src).stage2_timestamp.day ≤ (0 : Int) + 2) :=
  ⟨(claim_C4_widened_window [c4src, c4late] 0 c4src).1 (by decide) (by decide),
   (claim_C4_widened_window [c4src, c4late] 0 c4late).2.2.1 (by decide),
   (claim_C4_widened_window [c4src, c4late] 0 c4src).2.1 (mkStage2Row c4src)
     ((claim_C4_widened_window [c4src, c4late] 0 c4src).1 (by decide) (by decide))⟩

/-- Claim C5: a result row with no Stage 2 video path (no Stage 2 match)
derives its video path by the textual transform of the trigger frame uri
(frames-to-analyze to video-to-analyze, trailing .jpg to .mp4); a row with
a Stage 2 match carries the Stage 2 video path unchanged. -/
theorem claim_C5_unmatched_fallback (fm : FarmMapping) (t1 : List Stage1Src)
    (t2 : List Stage2Src) (p : QueryParams) (row : LinkedRow)
    (h : row ∈ queryStage1Stage2Rows fm t1 t2 p) :
    (row.s2 = none →
      row.video_url_derived = row.s1.trigger_frame_uri.map deriveVideoTransform) ∧
    (∀ b, row.s2 = some b → row.video_url_derived = some b.video_gcs_path) := by
  obtain ⟨hjoin, _⟩ := mem_query h
  unfold linkedJoin at hjoin
  rw [mem_flatMapL] at hjoin
  obtain ⟨a, _, hblock⟩ := hjoin
  rcases joinBlock_cases hblock with hnone | ⟨b2, _, heq⟩
  · subst hnone
    constructor
    · intro _; rfl
    · intro b hb; simp [mkLinked] at hb
  · subst heq
    constructor
    · intro hb; simp [mkLinked] at hb
    · intro b hb
      have hbb : b2 = b := by simpa [mkLinked] using hb
      subst hbb
      rfl

theorem claim_C5_unmatched_fallback_witness :
    (mkLinked (mkStage1Row c5src) none ∈ queryStage1Stage2Rows [] [c5src] [] c5params) ∧
    (mkLinked (mkStage1Row c5src) none).video_url_derived =
      (mkLinked (mkStage1Row c5src) none).s1.trigger_frame_uri.map deriveVideoTransform ∧
    (mkLinked (mkStage1Row c5src) none).video_url_derived =
      some ("gs://b/video-to-analyze/x/042_0000015_2026-01-21T08:15:30.mp4".toList) :=
  ⟨by decide,
   (claim_C5_unmatched_fallback [] [c5src] [] c5params
      (mkLinked (mkStage1Row c5src) none) (by decide)).1 rfl,
   by decide⟩

/-- Claim C6: with a tenant filter set (truthy and not All), an empty
resolved farm set yields the always-false 1=0 predicate and zero result
rows, never the unfiltered set; a non-empty farm set yields an IN-list
membership filter over exactly those farm ids, so every result row has its
farm id in the set. -/
theorem claim_C6_tenant_isolation (fm : FarmMapping) (t1 : List Stage1Src)
    (t2 : List Stage2Src) (p : QueryParams)
    (ht : p.tenant_id.truthy = true) (hall : p.tenant_id.eqStr allLit = false) :
    (tenantFarmIds fm p.tenant_id = [] →
      tenantFilterFrag fm p = [fun _ => false] ∧
      queryStage1Stage2Rows fm t1 t2 p = []) ∧
    (tenantFarmIds fm p.tenant_id ≠ [] →
      tenantFilterFrag fm p =
        [fun r => (tenantFarmIds fm p.tenant_id).contains r.farm_id] ∧
      ∀ row, row ∈ queryStage1Stage2Rows fm t1 t2 p →
        (tenantFarmIds fm p.tenant_id).contains row.s1.farm_id = true) := by
  constructor
  · intro hids
    have hfrag : tenantFilterFrag fm p = [fun _ => false] := by
      simp [tenantFilterFrag, ht, hall, hids]
    refine ⟨hfrag, ?_⟩
    have hpass : ∀ r, whereEval fm p r = false := by
      intro r
      simp [whereEval, s1Pass, s1Filters, hfrag]
    have hfil : (linkedJoin (stage1Data t1 p.queryDay) (stage2Data t2 p.queryDay)).filter
        (whereEval fm p) = [] := by
      rw [List.filter_eq_nil_iff]
      intro r _
      simp [hpass r]
    simp [queryStage1Stage2Rows, hfil, sortByLe_nil]
  · intro hne
    have hne' : (tenantFarmIds fm p.tenant_id).isEmpty = false := by
      cases hl : tenantFarmIds fm p.tenant_id with
      | nil => exact absurd hl hne
      | cons a t => rfl
    have hfrag : tenantFilterFrag fm p =
        [fun r => (tenantFarmIds fm p.tenant_id).contains r.farm_id] := by
      simp [tenantFilterFrag, ht, hall, hne']
    refine ⟨hfrag, ?_⟩
    intro row hrow
    have hw := (mem_query hrow).2
    have hA : ((tenantFilterFrag fm p).all fun f => f row.s1) = true := by
      unfold whereEval s1Pass s1Filters at hw
      simp only [List.all_append, Bool.and_eq_true] at hw
      exact hw.1.1.1.1.1
    rw [hfrag] at hA
    simpa using hA

theorem claim_C6_tenant_isolation_witness :
    queryStage1Stage2Rows c6fmEmpty [c6src] [] c6params = [] ∧
    (tenantFarmIds c6fm c6params.tenant_id).contains
        ((mkLinked (mkStage1Row c6src) none).s1.farm_id) = true :=
  ⟨((claim_C6_tenant_isolation c6fmEmpty [c6src] [] c6params
      (by decide) (by decide)).1 (by decide)).2,
   ((claim_C6_tenant_isolation c6fm [c6src] [] c6params
      (by decide) (by decide)).2 (by decide)).2
     (mkLinked (mkStage1Row c6src) none) (by decide)⟩

theorem joinBlock_length (s2s : List Stage2Row) (a : Stage1Row) :
    (joinBlock s2s a).length =
      max 1 (s2s.filter (fun b => joinPred a b)).length := by
  unfold joinBlock
  cases hf : s2s.filter (fun b => joinPred a b) with
  | nil => simp
  | cons m ms =>
      simp only [List.length_map, List.length_cons]
      omega

theorem joinBlock_s1_eq {s2s : List Stage2Row} {b : Stage1Row}
    {row : LinkedRow} (h : row ∈ joinBlock s2s b) : row.s1 = b := by
  rcases joinBlock_cases h with h1 | ⟨x, _, h1⟩ <;> subst h1 <;> rfl

theorem flatMapL_filter_count (f : Stage1Row → List LinkedRow)
    (P : LinkedRow → Bool) (a : Stage1Row) (k : Nat)
    (hyes : ((f a).filter P).length = k)
    (hno : ∀ b, ¬(b = a) → ((f b).filter P).length = 0) :
    ∀ l : List Stage1Row,
      ((flatMapL f l).filter P).length =
        (l.countP (fun b => decide (b = a))) * k := by
  intro l
  induction l with
  | nil => simp [flatMapL]
  | cons b t ih =>
      simp only [flatMapL, List.filter_append, List.length_append, ih,
        List.countP_cons]
      by_cases hb : b = a
      · subst hb
        simp [hyes]
        ring
      · simp [hno b hb, hb]

/-- Claim C1 (amended): provided the joined, WHERE-filtered row count does
not exceed the limit parameter (LIMIT truncates the ordered result
otherwise), every Stage 1 event of the requested day that passes the
left-side filters and occurs once in the day partition contributes exactly
max(1, number of Stage 2 matches) rows to the result: one NULL-extended
row with zero or one match, one row per match with several, none dropped,
none duplicated. -/
theorem claim_C1_amended_left_join (fm : FarmMapping) (t1 : List Stage1Src)
    (t2 : List Stage2Src) (p : QueryParams) (a : Stage1Row)
    (hpass : s1Pass fm p a = true)
    (hcount : (stage1Data t1 p.queryDay).countP (fun b => decide (b = a)) = 1)
    (hlen : ((linkedJoin (stage1Data t1 p.queryDay) (stage2Data t2 p.queryDay)).filter
        (whereEval fm p)).length ≤ p.limit) :
    ((queryStage1Stage2Rows fm t1 t2 p).filter
        (fun r => decide (r.s1 = a))).length =
      max 1 ((stage2Data t2 p.queryDay).filter
        (fun b => joinPred a b)).length := by
  have hyes : ((joinBlock (stage2Data t2 p.queryDay) a).filter
      (fun r => decide (r.s1 = a) && whereEval fm p r)).length =
      max 1 ((stage2Data t2 p.queryDay).filter (fun b => joinPred a b)).length := by
    have hall : ∀ row ∈ joinBlock (stage2Data t2 p.queryDay) a,
        (decide (row.s1 = a) && whereEval fm p row) = true := by
      intro row hrow
      have h1 := joinBlock_s1_eq hrow
      have h2 : whereEval fm p row = true := by
        unfold whereEval
        rw [h1]
        exact hpass
      simp [h1, h2]
    rw [List.filter_eq_self.mpr hall]
    exact joinBlock_length _ _
  have hno : ∀ b, ¬(b = a) → ((joinBlock (stage2Data t2 p.queryDay) b).filter
      (fun r => decide (r.s1 = a) && whereEval fm p r)).length = 0 := by
    intro b hb
    have hnil : (joinBlock (stage2Data t2 p.queryDay) b).filter
        (fun r => decide (r.s1 = a) && whereEval fm p r) = [] := by
      rw [List.filter_eq_nil_iff]
      intro row hrow
      have h1 := joinBlock_s1_eq hrow
      simp [h1, hb]
    rw [hnil]
    rfl
  have hcore := flatMapL_filter_count (joinBlock (stage2Data t2 p.queryDay))
      (fun r => decide (r.s1 = a) && whereEval fm p r) a _ hyes hno
      (stage1Data t1 p.queryDay)
  unfold queryStage1Stage2Rows
  have hsortlen : (sortByLe rowLe
      ((linkedJoin (stage1Data t1 p.queryDay) (stage2Data t2 p.queryDay)).filter
        (whereEval fm p))).length =
      ((linkedJoin (stage1Data t1 p.queryDay) (stage2Data t2 p.queryDay)).filter
        (whereEval fm p)).length :=
    (sortByLe_perm rowLe _).length_eq
  rw [List.take_of_length_le (by rw [hsortlen]; exact hlen)]
  rw [← List.countP_eq_length_filter]
  rw [(sortByLe_perm rowLe _).countP_eq]
  rw [List.countP_eq_length_filter]
  rw [List.filter_filter]
  unfold linkedJoin
  rw [hcore, hcount]
  simp

theorem claim_C1_counterexample :
    (mkStage1Row c1srcA ∈ stage1Data [c1srcA, c1srcB] c1params.queryDay) ∧
    s1Pass [] c1params (mkStage1Row c1srcA) = true ∧
    ((stage2Data [] c1params.queryDay).filter
        (fun b => joinPred (mkStage1Row c1srcA) b)).length = 0 ∧
    ((queryStage1Stage2Rows [] [c1srcA, c1srcB] [] c1params).filter
        (fun r => decide (r.s1 = mkStage1Row c1srcA))).length = 0 := by
  decide

theorem claim_C1_amended_left_join_witness :
    ((queryStage1Stage2Rows [] [c1srcA, c1srcB] [] c1params50).filter
        (fun r => decide (r.s1 = mkStage1Row c1srcA))).length =
      max 1 ((stage2Data [] c1params50.queryDay).filter
        (fun b => joinPred (mkStage1Row c1srcA) b)).length :=
  claim_C1_amended_left_join [] [c1srcA, c1srcB] [] c1params50
    (mkStage1Row c1srcA) (by decide) (by decide) (by decide)

theorem claim_C2_counterexample :
    ((extractOrEmpty scanSlashBlk c2path, extractOrEmpty scanTsKey c2path) ≠
      (extractOrEmpty anchoredBlk c2path, extractOrEmpty scanTsKey c2path)) ∧
    scanSlashBlk c2path = none ∧
    extractOrEmpty scanSlashBlk c2path = [] ∧
    anchoredBlk c2path = some ("042_0000015".toList) ∧
    sqlEqStr (some (extractOrEmpty scanSlashBlk c2path)) (some []) = true := by
  decide

/-- Claim C2 (amended): the two sides anchor differently.  The Stage 2
side extracts the block only at the very start of the filename; the
Stage 1 side extracts the first block immediately preceded by a slash.
Under those anchoring conditions (with the designated occurrence being the
first match position) both sides yield exactly the (block, timestamp_key)
pair, for any suffix and any prefix with no earlier match, so they agree
whenever both anchoring conditions hold.  When a component fails to match
a non-null input the stored key is the empty string, not null, and two
such empty keys compare equal in the join predicate. -/
theorem claim_C2_amended_key_extraction :
    (∀ blk ts suf : Str, shapedBy blkPat blk = true → shapedBy tsPat ts = true →
      (∀ j, j < blk.length → tsFireAt ((blk ++ '_' :: (ts ++ suf)).drop j) = none) →
      anchoredBlk (blk ++ '_' :: (ts ++ suf)) = some blk ∧
      scanTsKey (blk ++ '_' :: (ts ++ suf)) = some ts) ∧
    (∀ pre blk ts suf : Str, shapedBy blkPat blk = true → shapedBy tsPat ts = true →
      (∀ i, i < pre.length →
        slashBlkFireAt ((pre ++ '/' :: (blk ++ '_' :: (ts ++ suf))).drop i) = none) →
      (∀ j, j < pre.length + 1 + blk.length →
        tsFireAt ((pre ++ '/' :: (blk ++ '_' :: (ts ++ suf))).drop j) = none) →
      scanSlashBlk (pre ++ '/' :: (blk ++ '_' :: (ts ++ suf))) = some blk ∧
      scanTsKey (pre ++ '/' :: (blk ++ '_' :: (ts ++ suf))) = some ts) ∧
    (∀ s : Str, scanSlashBlk s = none → extractOrEmpty scanSlashBlk s = []) ∧
    (∀ x y : Str, sqlEqStr (some x) (some y) = true ↔ x = y) := by
  refine ⟨?_, ?_, ?_, ?_⟩
  · intro blk ts suf hblk hts hnofire
    constructor
    · have hm := shapedBy_ext hblk ('_' :: (ts ++ suf))
      simp [anchoredBlk, hm]
    · have hskip := @scanWith_skip tsFireAt blk ('_' :: (ts ++ suf)) hnofire
      have hfire : tsFireAt ('_' :: (ts ++ suf)) = some ts := by
        simp [tsFireAt, shapedBy_ext hts suf]
      unfold scanTsKey
      rw [hskip]
      exact scanWith_fire hfire
  · intro pre blk ts suf hblk hts hnof1 hnof2
    have hm := shapedBy_ext hblk ('_' :: (ts ++ suf))
    constructor
    · have hskip := @scanWith_skip slashBlkFireAt pre
        ('/' :: (blk ++ '_' :: (ts ++ suf))) hnof1
      have hfire : slashBlkFireAt ('/' :: (blk ++ '_' :: (ts ++ suf))) = some blk := by
        simp [slashBlkFireAt, hm]
      unfold scanSlashBlk
      rw [hskip]
      exact scanWith_fire hfire
    · have hEq : pre ++ '/' :: (blk ++ '_' :: (ts ++ suf)) =
          (pre ++ '/' :: blk) ++ ('_' :: (ts ++ suf)) := by
        simp
    
      have hlen : (pre ++ '/' :: blk).length = pre.length + 1 + blk.length := by
        simp
        omega
      have hnof2b : ∀ i, i < (pre ++ '/' :: blk).length →
          tsFireAt (((pre ++ '/' :: blk) ++ ('_' :: (ts ++ suf))).drop i) = none := by
        intro i hi
        rw [← hEq]
        exact hnof2 i (by rw [hlen] at hi; omega)
      have hskip := @scanWith_skip tsFireAt (pre ++ '/' :: blk)
        ('_' :: (ts ++ suf)) hnof2b
      have hfire : tsFireAt ('_' :: (ts ++ suf)) = some ts := by
        simp [tsFireAt, shapedBy_ext hts suf]
      unfold scanTsKey
      rw [hEq, hskip]
      exact scanWith_fire hfire
  · intro s hs
    simp [extractOrEmpty, hs]
  · intro x y
    simp [sqlEqStr]

theorem claim_C2_amended_key_extraction_witness :
    (anchoredBlk (c2blk ++ '_' :: (c2ts ++ ".mp4".toList)) = some c2blk ∧
     scanTsKey (c2blk ++ '_' :: (c2ts ++ ".mp4".toList)) = some c2ts) ∧
    (scanSlashBlk (c2pre ++ '/' :: (c2blk ++ '_' :: (c2ts ++ ".jpg".toList))) = some c2blk ∧
     scanTsKey (c2pre ++ '/' :: (c2blk ++ '_' :: (c2ts ++ ".jpg".toList))) = some c2ts) ∧
    extractOrEmpty scanSlashBlk c2blk = [] :=
  ⟨claim_C2_amended_key_extraction.1 c2blk c2ts (".mp4".toList)
     (by decide) (by decide) (by decide),
   claim_C2_amended_key_extraction.2.1 c2pre c2blk c2ts (".jpg".toList)
     (by decide) (by decide) (by decide) (by decide),
   claim_C2_amended_key_extraction.2.2.1 c2blk (by decide)⟩
